import Mathlib

/-!
Verification of `libpkl/src/main/c/pkl.c` (apple/pkl): the exclusive-access
executor handle that guards the lifecycle of the embedded Pkl engine and
serializes message sends to it.

Shallow embedding notes.

* The engine (`pkl_internal_*`, generated by GraalVM) and the platform mutex
  primitives are external to the repository; their per-call outcomes are
  supplied by an environment record `Env`.  The POSIX (`#else`) branches of the
  conditional compilation are embedded; on them `pthread_mutex_init`, `lock`,
  `unlock` and `destroy` are fallible, which the `Env` flags model.
* Heap effects and calls into the engine are recorded in an `Event` trace so
  that ordering and "no external call happened" facts are provable.
* `abort()` (process termination) is a distinct `Outcome.abort`, never a
  return value.
* The caller-supplied `pkl_error_t *error` out-parameter is only ever written,
  never read; each result carries `msg`, the value that the call stores into
  `error->message` whenever the caller passed a non-null `error`.
* Pointer-valued arguments that the C checks against `NULL` are embedded as
  `Option` values (`none` = the null pointer).
-/

/-- Result of a C call that may instead terminate the process via `abort()`. -/
inductive Outcome (α : Type) where
  | ret : α → Outcome α
  | abort : Outcome α
deriving DecidableEq, Repr

/-- Observable external effects of the library, in program order: heap events
on the executor storage, mutex-primitive calls, calls into the engine, and
writes to the process-wide singleton flag. -/
inductive Event where
  | calloc_exec
  | mutex_init
  | mutex_lock
  | mutex_unlock
  | mutex_destroy
  | internal_init
  | internal_register_response_handler
  | internal_server_start
  | internal_send (iso : Option Nat) (length : Int) (message : List Nat)
  | internal_server_stop
  | internal_close
  | null_engine_ref
  | free_exec
  | set_guard (b : Bool)
deriving DecidableEq, Repr

/-- The executor handle `struct __pkl_exec_t`: it owns the engine reference
`graal_isolatethread` (an engine instance id, `none` = the C `NULL`).  The
mutex it also owns is modelled by the `Env` primitives and the `Event` trace
rather than by a field, since the C never reads the mutex word itself. -/
structure PklExec where
  graal_isolatethread : Option Nat
deriving DecidableEq, Repr

/-- Process-wide state: the singleton flag (the C global `pkl_is_initialized`,
renamed here) and the currently live executor allocation, if any. -/
structure World where
  pkl_singleton_guard : Bool
  exec : Option PklExec
deriving DecidableEq, Repr

/-- Outcomes of the external primitives for one library call: whether `calloc`
returns storage, whether each POSIX mutex primitive returns 0, what
`pkl_internal_init` returns (`none` = `NULL`), and the result code plus
`*errormessage` text produced by `pkl_internal_send_message`. -/
structure Env where
  calloc_ok : Bool
  mutex_init_ok : Bool
  mutex_lock_ok : Bool
  mutex_unlock_ok : Bool
  mutex_destroy_ok : Bool
  internal_init_result : Option Nat
  internal_send : Option Nat → Int → List Nat → Int × String

/-- `PKL_ERR_LOCK` from `pkl.h`. -/
def PKL_ERR_LOCK : Int := 1

/-- `PKL_ERR_PROTOCOL` from `pkl.h`. -/
def PKL_ERR_PROTOCOL : Int := 2

/-- Result of `pkl_init`: the C return value, the text stored into
`error->message` (when `error` is non-null), the value written into the
caller's `*exec` slot (`none` = slot untouched, `some none` = `*exec = NULL`,
`some (some h)` = the new handle), the world after the call, and the trace. -/
structure InitRet where
  ret : Int
  msg : Option String
  execOut : Option (Option PklExec)
  world : World
  trace : List Event
deriving DecidableEq, Repr

/-- `pkl_init` from `pkl.c` (lines 77-146).  `handlerNull` / `execSlotNull`
say whether the caller passed `NULL` for `handler` / `exec`.  Mirrors the C
in order: null checks, singleton-guard check, `calloc` (abort on failure),
`pthread_mutex_init` (free storage and return on failure),
`pkl_internal_init` (destroy mutex — abort if that fails — free storage and
return on failure), then register handler, start server, set the guard,
publish the handle. -/
def pkl_init (handlerNull : Bool) (execSlotNull : Bool) (env : Env) (w : World) :
    Outcome InitRet :=
  if handlerNull then
    .ret ⟨-1, some ("handler is null"), none, w, []⟩
  else if execSlotNull then
    .ret ⟨-1, some ("exec is null"), none, w, []⟩
  else if w.pkl_singleton_guard then
    .ret ⟨-1, some ("pkl_init called multiple times without calling pkl_close"),
      none, w, []⟩
  else if env.calloc_ok = false then
    .abort
  else if env.mutex_init_ok = false then
    .ret ⟨-1, some ("Failed to initialize mutex"), some none, w,
      [.calloc_exec, .mutex_init, .free_exec]⟩
  else
    match env.internal_init_result with
    | none =>
      if env.mutex_destroy_ok = false then
        .abort
      else
        .ret ⟨-1, some ("Failed to allocate graal_isolatethread"), some none, w,
          [.calloc_exec, .mutex_init, .internal_init, .mutex_destroy, .free_exec]⟩
    | some iso =>
      .ret ⟨0, none, some (some ⟨some iso⟩),
        ⟨true, some ⟨some iso⟩⟩,
        [.calloc_exec, .mutex_init, .internal_init,
         .internal_register_response_handler, .internal_server_start,
         .set_guard true]⟩

/-- Result of `pkl_send_message`: return value, `error->message` text, the
handle state after the call (unchanged by a send), and the trace. -/
structure SendRet where
  ret : Int
  msg : Option String
  pexec : Option PklExec
  trace : List Event
deriving DecidableEq, Repr

/-- `pkl_send_message` from `pkl.c` (lines 148-181): null checks on `pexec`
and `message`, `pkl_lock_mutex` (return `PKL_ERR_LOCK` on failure), forward
`(length, message)` unchanged to `pkl_internal_send_message`,
`pkl_unlock_mutex` (abort on failure), then return the engine's result code —
with the engine-supplied `errormessage` on a non-zero result.  This sequential
model covers one uncontended call; the contended case is the small-step system
below. -/
def pkl_send_message (pexec : Option PklExec) (length : Int)
    (message : Option (List Nat)) (env : Env) : Outcome SendRet :=
  match pexec with
  | none => .ret ⟨-1, some ("pexec is null"), none, []⟩
  | some h =>
    match message with
    | none => .ret ⟨-1, some ("message is null"), some h, []⟩
    | some payload =>
      if env.mutex_lock_ok = false then
        .ret ⟨PKL_ERR_LOCK, some ("failed to lock mutex"), some h, [.mutex_lock]⟩
      else
        let r := env.internal_send h.graal_isolatethread length payload
        if env.mutex_unlock_ok = false then
          .abort
        else if r.1 ≠ 0 then
          .ret ⟨r.1, some r.2, some h,
            [.mutex_lock, .internal_send h.graal_isolatethread length payload,
             .mutex_unlock]⟩
        else
          .ret ⟨0, none, some h,
            [.mutex_lock, .internal_send h.graal_isolatethread length payload,
             .mutex_unlock]⟩

/-- Result of `pkl_close`: return value, `error->message` text, the world
after the call, and the trace. -/
structure CloseRet where
  ret : Int
  msg : Option String
  world : World
  trace : List Event
deriving DecidableEq, Repr

/-- The order of external effects a successful `pkl_close` performs in the C
(lines 191-224): lock; `pkl_runtime_cleanup` = server stop, instance close,
null the engine ref; unlock; destroy the mutex; clear the singleton guard
(line 219); free the handle storage (line 220). -/
def code_close_order : List Event :=
  [.mutex_lock, .internal_server_stop, .internal_close, .null_engine_ref,
   .mutex_unlock, .mutex_destroy, .set_guard false, .free_exec]

/-- The order of teardown effects stated by the spec for a successful destroy
("free handle storage; clear the Singleton Guard", §4.4).  Written from the
spec's words, to be compared with `code_close_order`. -/
def spec_close_order : List Event :=
  [.mutex_lock, .internal_server_stop, .internal_close, .null_engine_ref,
   .mutex_unlock, .mutex_destroy, .free_exec, .set_guard false]

/-- `pkl_close` from `pkl.c` (lines 183-225): null check on `pexec`,
`pthread_mutex_lock` (return `PKL_ERR_LOCK` on failure),
`pkl_runtime_cleanup`, `pthread_mutex_unlock` (abort on failure),
`pthread_mutex_destroy` (abort on failure), clear `pkl_is_initialized`,
`free(pexec)`, return 0. -/
def pkl_close (pexec : Option PklExec) (env : Env) (w : World) :
    Outcome CloseRet :=
  match pexec with
  | none => .ret ⟨-1, some ("pexec is null"), w, []⟩
  | some _h =>
    if env.mutex_lock_ok = false then
      .ret ⟨PKL_ERR_LOCK, some ("failed to lock mutex"), w, [.mutex_lock]⟩
    else if env.mutex_unlock_ok = false then
      .abort
    else if env.mutex_destroy_ok = false then
      .abort
    else
      .ret ⟨0, none, ⟨false, none⟩, code_close_order⟩

/-- The `PKL_VERSION` macro: the build may define it; when it does not,
`pkl.c` lines 31-33 default it to `"0.0.0"`. -/
def PKL_VERSION (build : Option String) : String := build.getD "0.0.0"

/-- `pkl_version` from `pkl.c` (lines 227-229): returns the `PKL_VERSION`
constant; takes no handle, touches no state, has no error path. -/
def pkl_version (build : Option String) : String := PKL_VERSION build

/-!
Concurrent model of two `pkl_send_message` calls racing on the same live
handle.  Each thread runs the locked section of `pkl_send_message`: acquire
the handle's mutex (blocking until it is free), forward its payload into the
engine — modelled byte by byte, so that the bytes the engine observes form a
`stream` and interleaving would be visible — then release the mutex and
return.  The mutex is the reliable blocking lock of the platform primitives
on a valid mutex (on Win32 `EnterCriticalSection` cannot fail); the fallible
single-call path is the sequential `pkl_send_message` above.
-/

/-- Thread identity for the two racing senders. -/
inductive Tid where
  | t0
  | t1
deriving DecidableEq, Repr

/-- Program counter of one sender thread: `ready` = before the lock,
`sending rest` = inside the engine with `rest` still to transfer,
`unlocking` = engine call returned, about to release, `done` = returned. -/
inductive TProg where
  | ready
  | sending (rest : List Nat)
  | unlocking
  | done
deriving DecidableEq, Repr

/-- State of the two-thread system: who holds the handle's mutex, each
thread's program counter, and the bytes the engine has observed so far in
order. -/
structure Sys where
  lock : Option Tid
  pc0 : TProg
  pc1 : TProg
  stream : List Nat
deriving DecidableEq, Repr

/-- Interleaving semantics: at each step one thread acquires the free lock,
transfers one byte of its payload into the engine, finishes its engine call,
or releases the lock and returns.  `p0`, `p1` are the two payloads. -/
inductive Step (p0 p1 : List Nat) : Sys → Sys → Prop where
  | acquire0 (s : Sys) : s.pc0 = .ready → s.lock = none →
      Step p0 p1 s ⟨some .t0, .sending p0, s.pc1, s.stream⟩
  | emit0 (s : Sys) (b : Nat) (rs : List Nat) : s.pc0 = .sending (b :: rs) →
      Step p0 p1 s ⟨s.lock, .sending rs, s.pc1, s.stream ++ [b]⟩
  | finish0 (s : Sys) : s.pc0 = .sending [] →
      Step p0 p1 s ⟨s.lock, .unlocking, s.pc1, s.stream⟩
  | release0 (s : Sys) : s.pc0 = .unlocking →
      Step p0 p1 s ⟨none, .done, s.pc1, s.stream⟩
  | acquire1 (s : Sys) : s.pc1 = .ready → s.lock = none →
      Step p0 p1 s ⟨some .t1, s.pc0, .sending p1, s.stream⟩
  | emit1 (s : Sys) (b : Nat) (rs : List Nat) : s.pc1 = .sending (b :: rs) →
      Step p0 p1 s ⟨s.lock, s.pc0, .sending rs, s.stream ++ [b]⟩
  | finish1 (s : Sys) : s.pc1 = .sending [] →
      Step p0 p1 s ⟨s.lock, s.pc0, .unlocking, s.stream⟩
  | release1 (s : Sys) : s.pc1 = .unlocking →
      Step p0 p1 s ⟨none, s.pc0, .done, s.stream⟩

/-- Initial racing state: lock free, both threads about to send, engine has
seen nothing. -/
def initSys : Sys := ⟨none, .ready, .ready, []⟩

/-- States reachable from `initSys` by the interleaving semantics. -/
inductive Reach (p0 p1 : List Nat) : Sys → Prop where
  | init : Reach p0 p1 initSys
  | step {s s' : Sys} : Reach p0 p1 s → Step p0 p1 s s' → Reach p0 p1 s'

/-- A thread is inside its critical section (holding the lock). -/
def isActive : TProg → Prop
  | .ready => False
  | .sending _ => True
  | .unlocking => True
  | .done => False

/-- `contrib p t c`: thread state `t` with payload `p` has transferred
exactly the bytes `c` into the engine. -/
def contrib (p : List Nat) : TProg → List Nat → Prop
  | .ready, c => c = []
  | .sending rest, c => c ++ rest = p
  | .unlocking, c => c = p
  | .done, c => c = p

/-- Inductive invariant of the racing system: the lock is held exactly by the
active thread, and the engine's stream is the two threads' contributions one
after the other — with a mid-send thread's partial contribution last. -/
def SysInv (p0 p1 : List Nat) (s : Sys) : Prop :=
  (isActive s.pc0 ↔ s.lock = some .t0) ∧
  (isActive s.pc1 ↔ s.lock = some .t1) ∧
  ∃ c0 c1, contrib p0 s.pc0 c0 ∧ contrib p1 s.pc1 c1 ∧
    (s.stream = c0 ++ c1 ∨ s.stream = c1 ++ c0) ∧
    (∀ r, s.pc0 = .sending r → s.stream = c1 ++ c0) ∧
    (∀ r, s.pc1 = .sending r → s.stream = c0 ++ c1)

/-- Work remaining for one thread, used to bound executions. -/
def progMeasure (p : List Nat) : TProg → Nat
  | .ready => p.length + 3
  | .sending rest => rest.length + 2
  | .unlocking => 1
  | .done => 0

/-- Work remaining in the whole system. -/
def sysMeasure (p0 p1 : List Nat) (s : Sys) : Nat :=
  progMeasure p0 s.pc0 + progMeasure p1 s.pc1

/-- Tail of `pkl_send_message` (lines 171-180): the value returned to the
caller and the text stored into `error->message`, as a function of the
engine's `(resp, errormessage)`. -/
def sendReturn (r : Int × String) : Int × Option String :=
  if r.1 ≠ 0 then (r.1, some r.2) else (0, none)

/-- The invariant holds initially. -/
theorem sysInv_init (p0 p1 : List Nat) : SysInv p0 p1 initSys := by
  refine ⟨by simp [initSys, isActive], by simp [initSys, isActive],
    [], [], rfl, rfl, by simp [initSys], ?_, ?_⟩ <;>
    intro r hr <;> simp [initSys] at hr

/-- If neither thread is in its critical section, the lock is free. -/
theorem lock_none_of_inactive {s : Sys}
    (hl0 : isActive s.pc0 ↔ s.lock = some .t0)
    (hl1 : isActive s.pc1 ↔ s.lock = some .t1)
    (h0 : ¬ isActive s.pc0) (h1 : ¬ isActive s.pc1) : s.lock = none := by
  cases hlk : s.lock with
  | none => rfl
  | some t =>
    cases t with
    | t0 => exact absurd (hl0.mpr hlk) h0
    | t1 => exact absurd (hl1.mpr hlk) h1

/-- The invariant is preserved by every step. -/
theorem sysInv_step {p0 p1 : List Nat} {s s' : Sys} (hstep : Step p0 p1 s s')
    (hinv : SysInv p0 p1 s) : SysInv p0 p1 s' := by
  obtain ⟨hl0, hl1, c0, c1, hc0, hc1, hstream, hlast0, hlast1⟩ := hinv
  cases hstep with
  | acquire0 hpc hlk =>
    rw [hpc] at hc0
    simp only [contrib] at hc0
    subst hc0
    rw [hlk] at hl1
    simp only [reduceCtorEq, iff_false] at hl1
    have hst : s.stream = c1 := by rcases hstream with h | h <;> simpa using h
    refine ⟨by simp [isActive], by simp only [Option.some.injEq, reduceCtorEq, iff_false]; exact hl1, [], c1,
      by simp [contrib], hc1, ?_, ?_, ?_⟩
    · left; simpa using hst
    · intro r hr; simpa using hst
    · intro r hr; simpa using hst
  | emit0 b rs hpc =>
    have hlk : s.lock = some .t0 := hl0.mp (by rw [hpc]; trivial)
    rw [hlk] at hl1
    simp only [Option.some.injEq, reduceCtorEq, iff_false] at hl1
    rw [hpc] at hc0
    simp only [contrib] at hc0
    have hst : s.stream = c1 ++ c0 := hlast0 (b :: rs) hpc
    refine ⟨by simp [isActive, hlk], by rw [hlk]; simp only [Option.some.injEq, reduceCtorEq, iff_false]; exact hl1,
      c0 ++ [b], c1, ?_, hc1, ?_, ?_, ?_⟩
    · simp only [contrib, List.append_assoc, List.singleton_append]
      exact hc0
    · right; rw [hst, List.append_assoc]
    · intro r hr; rw [hst, List.append_assoc]
    · intro r hr
      exact absurd (by rw [hr]; trivial : isActive s.pc1) hl1
  | finish0 hpc =>
    have hlk : s.lock = some .t0 := hl0.mp (by rw [hpc]; trivial)
    rw [hlk] at hl1
    simp only [Option.some.injEq, reduceCtorEq, iff_false] at hl1
    rw [hpc] at hc0
    simp only [contrib, List.append_nil] at hc0
    have hst : s.stream = c1 ++ c0 := hlast0 [] hpc
    refine ⟨by simp [isActive, hlk], by rw [hlk]; simp only [Option.some.injEq, reduceCtorEq, iff_false]; exact hl1,
      c0, c1, by simp [contrib, hc0], hc1, Or.inr hst, ?_, ?_⟩
    · intro r hr; simp at hr
    · intro r hr
      exact absurd (by rw [hr]; trivial : isActive s.pc1) hl1
  | release0 hpc =>
    have hlk : s.lock = some .t0 := hl0.mp (by rw [hpc]; trivial)
    rw [hlk] at hl1
    simp only [Option.some.injEq, reduceCtorEq, iff_false] at hl1
    rw [hpc] at hc0
    simp only [contrib] at hc0
    refine ⟨by simp [isActive], by simp only [Option.some.injEq, reduceCtorEq, iff_false]; exact hl1,
      c0, c1, by simp [contrib, hc0], hc1, hstream, ?_, ?_⟩
    · intro r hr; simp at hr
    · intro r hr
      exact absurd (by rw [hr]; trivial : isActive s.pc1) hl1
  | acquire1 hpc hlk =>
    rw [hpc] at hc1
    simp only [contrib] at hc1
    subst hc1
    rw [hlk] at hl0
    simp only [reduceCtorEq, iff_false] at hl0
    have hst : s.stream = c0 := by rcases hstream with h | h <;> simpa using h
    refine ⟨by simp only [Option.some.injEq, reduceCtorEq, iff_false]; exact hl0, by simp [isActive], c0, [],
      hc0, by simp [contrib], ?_, ?_, ?_⟩
    · left; simpa using hst
    · intro r hr; simpa using hst
    · intro r hr; simpa using hst
  | emit1 b rs hpc =>
    have hlk : s.lock = some .t1 := hl1.mp (by rw [hpc]; trivial)
    rw [hlk] at hl0
    simp only [Option.some.injEq, reduceCtorEq, iff_false] at hl0
    rw [hpc] at hc1
    simp only [contrib] at hc1
    have hst : s.stream = c0 ++ c1 := hlast1 (b :: rs) hpc
    refine ⟨by rw [hlk]; simp only [Option.some.injEq, reduceCtorEq, iff_false]; exact hl0, by simp [isActive, hlk],
      c0, c1 ++ [b], hc0, ?_, ?_, ?_, ?_⟩
    · simp only [contrib, List.append_assoc, List.singleton_append]
      exact hc1
    · left; rw [hst, List.append_assoc]
    · intro r hr
      exact absurd (by rw [hr]; trivial : isActive s.pc0) hl0
    · intro r hr; rw [hst, List.append_assoc]
  | finish1 hpc =>
    have hlk : s.lock = some .t1 := hl1.mp (by rw [hpc]; trivial)
    rw [hlk] at hl0
    simp only [Option.some.injEq, reduceCtorEq, iff_false] at hl0
    rw [hpc] at hc1
    simp only [contrib, List.append_nil] at hc1
    have hst : s.stream = c0 ++ c1 := hlast1 [] hpc
    refine ⟨by rw [hlk]; simp only [Option.some.injEq, reduceCtorEq, iff_false]; exact hl0, by simp [isActive, hlk],
      c0, c1, hc0, by simp [contrib, hc1], Or.inl hst, ?_, ?_⟩
    · intro r hr
      exact absurd (by rw [hr]; trivial : isActive s.pc0) hl0
    · intro r hr; simp at hr
  | release1 hpc =>
    have hlk : s.lock = some .t1 := hl1.mp (by rw [hpc]; trivial)
    rw [hlk] at hl0
    simp only [Option.some.injEq, reduceCtorEq, iff_false] at hl0
    rw [hpc] at hc1
    simp only [contrib] at hc1
    refine ⟨by simp only [Option.some.injEq, reduceCtorEq, iff_false]; exact hl0, by simp [isActive],
      c0, c1, hc0, by simp [contrib, hc1], hstream, ?_, ?_⟩
    · intro r hr
      exact absurd (by rw [hr]; trivial : isActive s.pc0) hl0
    · intro r hr; simp at hr

/-- Every reachable state satisfies the invariant. -/
theorem sysInv_reach {p0 p1 : List Nat} {s : Sys} (h : Reach p0 p1 s) :
    SysInv p0 p1 s := by
  induction h with
  | init => exact sysInv_init p0 p1
  | step _ hstep ih => exact sysInv_step hstep ih

/-- Deadlock freedom: unless both sends have returned, some step is enabled. -/
theorem sys_progress {p0 p1 : List Nat} {s : Sys} (hinv : SysInv p0 p1 s)
    (h : ¬(s.pc0 = .done ∧ s.pc1 = .done)) : ∃ s', Step p0 p1 s s' := by
  obtain ⟨hl0, hl1, -⟩ := hinv
  cases hp0 : s.pc0 with
  | sending rest =>
    cases rest with
    | nil => exact ⟨_, Step.finish0 s hp0⟩
    | cons b rs => exact ⟨_, Step.emit0 s b rs hp0⟩
  | unlocking => exact ⟨_, Step.release0 s hp0⟩
  | ready =>
    have h0 : ¬ isActive s.pc0 := by rw [hp0]; simp [isActive]
    cases hp1 : s.pc1 with
    | sending rest =>
      cases rest with
      | nil => exact ⟨_, Step.finish1 s hp1⟩
      | cons b rs => exact ⟨_, Step.emit1 s b rs hp1⟩
    | unlocking => exact ⟨_, Step.release1 s hp1⟩
    | ready =>
      have h1 : ¬ isActive s.pc1 := by rw [hp1]; simp [isActive]
      exact ⟨_, Step.acquire0 s hp0 (lock_none_of_inactive hl0 hl1 h0 h1)⟩
    | done =>
      have h1 : ¬ isActive s.pc1 := by rw [hp1]; simp [isActive]
      exact ⟨_, Step.acquire0 s hp0 (lock_none_of_inactive hl0 hl1 h0 h1)⟩
  | done =>
    have h0 : ¬ isActive s.pc0 := by rw [hp0]; simp [isActive]
    cases hp1 : s.pc1 with
    | sending rest =>
      cases rest with
      | nil => exact ⟨_, Step.finish1 s hp1⟩
      | cons b rs => exact ⟨_, Step.emit1 s b rs hp1⟩
    | unlocking => exact ⟨_, Step.release1 s hp1⟩
    | done => exact absurd ⟨hp0, hp1⟩ h
    | ready =>
      have h1 : ¬ isActive s.pc1 := by rw [hp1]; simp [isActive]
      exact ⟨_, Step.acquire1 s hp1 (lock_none_of_inactive hl0 hl1 h0 h1)⟩

/-- Every step strictly decreases the remaining work, so every execution of
the racing system is finite. -/
theorem sysMeasure_step {p0 p1 : List Nat} {s s' : Sys}
    (h : Step p0 p1 s s') : sysMeasure p0 p1 s' < sysMeasure p0 p1 s := by
  cases h with
  | acquire0 hpc hlk => simp [sysMeasure, progMeasure, hpc]
  | emit0 b rs hpc => simp [sysMeasure, progMeasure, hpc]
  | finish0 hpc => simp [sysMeasure, progMeasure, hpc]
  | release0 hpc => simp [sysMeasure, progMeasure, hpc]
  | acquire1 hpc hlk => simp [sysMeasure, progMeasure, hpc]
  | emit1 b rs hpc => simp [sysMeasure, progMeasure, hpc]
  | finish1 hpc => simp [sysMeasure, progMeasure, hpc]
  | release1 hpc => simp [sysMeasure, progMeasure, hpc]

/-- An engine send primitive that always succeeds. -/
def sendOk : Option Nat → Int → List Nat → Int × String := fun _ _ _ => (0, "")

/-- Environment in which every external primitive succeeds. -/
def envAllOk : Env := ⟨true, true, true, true, true, some 1, sendOk⟩

/-- Environment in which acquiring the mutex fails. -/
def envLockFail : Env := ⟨true, true, false, true, true, some 1, sendOk⟩

/-- Environment in which `pthread_mutex_init` fails. -/
def envMutexInitFail : Env := ⟨true, false, true, true, true, some 1, sendOk⟩

/-- Environment in which the engine fails to produce an instance. -/
def envEngineInitFail : Env := ⟨true, true, true, true, true, none, sendOk⟩

/-- Environment in which `calloc` returns `NULL`. -/
def envCallocFail : Env := ⟨false, true, true, true, true, some 1, sendOk⟩

/-- A live handle bound to engine instance 1. -/
def hLive : PklExec := ⟨some 1⟩

/-- World with one live executor: guard set, allocation live. -/
def wLive : World := ⟨true, some hLive⟩

/-- World with no live executor: guard clear, nothing allocated. -/
def wEmpty : World := ⟨false, none⟩

/-- C6: every operation given a required null argument — `pkl_init` with a
null handler or a null out-slot, `pkl_send_message` with a null handle or a
null payload, `pkl_close` with a null handle — returns the -1 failure with
the corresponding null-argument message, performs no external call (empty
trace, so nothing was dereferenced), writes nothing to the out-slot, and
leaves the world — singleton guard and engine state — unchanged. -/
theorem null_arguments_rejected (env : Env) (w : World) (h : PklExec)
    (execSlotNull : Bool) (L : Int) (m : List Nat) :
    pkl_init true execSlotNull env w =
      .ret ⟨-1, some ("handler is null"), none, w, []⟩ ∧
    pkl_init false true env w = .ret ⟨-1, some ("exec is null"), none, w, []⟩ ∧
    pkl_send_message none L (some m) env =
      .ret ⟨-1, some ("pexec is null"), none, []⟩ ∧
    pkl_send_message (some h) L none env =
      .ret ⟨-1, some ("message is null"), some h, []⟩ ∧
    pkl_send_message none L none env =
      .ret ⟨-1, some ("pexec is null"), none, []⟩ ∧
    pkl_close none env w = .ret ⟨-1, some ("pexec is null"), w, []⟩ :=
  ⟨rfl, rfl, rfl, rfl, rfl, rfl⟩

/-- C9: `pkl_version` is a constant function of the build-time `PKL_VERSION`
value — its type takes no handle, no world and no error out-parameter, so it
is pure with no error path — and it returns a non-empty string: the in-source
default `"0.0.0"` when the build does not define the macro, and the
build-recorded constant otherwise. -/
theorem pkl_version_pure_nonempty :
    pkl_version none = "0.0.0" ∧ pkl_version none ≠ "" ∧
    (∀ v, pkl_version (some v) = v) ∧
    (∀ v, v ≠ "" → pkl_version (some v) ≠ "") := by
  refine ⟨rfl, by decide, fun v => rfl, fun v hv => ?_⟩
  simpa [pkl_version, PKL_VERSION] using hv

/-- Witness for C9 at a concrete build-recorded version string. -/
theorem pkl_version_pure_nonempty_witness :
    pkl_version (some ("0.29.0")) ≠ "" :=
  pkl_version_pure_nonempty.2.2.2 "0.29.0" (by decide)

/-- C10: if `calloc` fails during `pkl_init` (non-null arguments, guard
clear, so the allocation is reached), the process terminates via `abort`;
the failure is never reported through the error detail and a failure return
value. -/
theorem pkl_init_calloc_failure_aborts (env : Env) (w : World)
    (hguard : w.pkl_singleton_guard = false) (hc : env.calloc_ok = false) :
    pkl_init false false env w = .abort ∧
    ∀ r, pkl_init false false env w ≠ .ret r := by
  have habort : pkl_init false false env w = .abort := by
    simp [pkl_init, hguard, hc]
  exact ⟨habort, fun r hr => by rw [habort] at hr; exact Outcome.noConfusion hr⟩

/-- Witness for C10 at a concrete failing allocation. -/
theorem pkl_init_calloc_failure_aborts_witness :
    pkl_init false false envCallocFail wEmpty = .abort :=
  (pkl_init_calloc_failure_aborts envCallocFail wEmpty rfl rfl).1

/-- C8: a zero-length, non-null payload is not rejected in this layer: it is
forwarded to the engine's send primitive unchanged (length 0 and the empty
byte buffer appear verbatim in the engine call), and the return value is
exactly the engine's result code, so success is decided by the engine
alone. -/
theorem pkl_send_zero_length_forwarded (h : PklExec) (env : Env)
    (hl : env.mutex_lock_ok = true) (hu : env.mutex_unlock_ok = true) :
    ∃ r, pkl_send_message (some h) 0 (some []) env = .ret r ∧
      r.trace = [.mutex_lock, .internal_send h.graal_isolatethread 0 [],
        .mutex_unlock] ∧
      r.ret = (env.internal_send h.graal_isolatethread 0 []).1 ∧
      (r.ret = 0 ↔ (env.internal_send h.graal_isolatethread 0 []).1 = 0) := by
  by_cases hresp : (env.internal_send h.graal_isolatethread 0 []).1 = 0
  · refine ⟨⟨0, none, some h,
      [.mutex_lock, .internal_send h.graal_isolatethread 0 [], .mutex_unlock]⟩,
      ?_, rfl, hresp.symm, by simp [hresp]⟩
    simp [pkl_send_message, hl, hu, hresp]
  · refine ⟨⟨(env.internal_send h.graal_isolatethread 0 []).1,
      some (env.internal_send h.graal_isolatethread 0 []).2, some h,
      [.mutex_lock, .internal_send h.graal_isolatethread 0 [], .mutex_unlock]⟩,
      ?_, rfl, rfl, Iff.rfl⟩
    simp [pkl_send_message, hl, hu, hresp]

/-- Witness for C8: the zero-length send against the always-accepting engine
succeeds with the empty buffer forwarded. -/
theorem pkl_send_zero_length_forwarded_witness :
    ∃ r, pkl_send_message (some hLive) 0 (some []) envAllOk = .ret r ∧
      r.trace = [.mutex_lock, .internal_send (some 1) 0 [], .mutex_unlock] := by
  obtain ⟨r, h1, h2, -⟩ := pkl_send_zero_length_forwarded hLive envAllOk rfl rfl
  exact ⟨r, h1, h2⟩

/-- C5: for a send with non-null handle and payload whose lock acquisition
succeeds, every returning exit path has released the lock — the trace ends
with the unlock, including when the forward call into the engine fails — and
the handle comes back intact, fully usable for further sends.  The call
returns 0 exactly when the engine's send primitive returned 0; otherwise it
returns the engine's result code with the engine-supplied text in the error
detail.  Failure of the unlock primitive itself is not an exit path: it
aborts the process. -/
theorem pkl_send_lock_released (h : PklExec) (L : Int) (m : List Nat)
    (env : Env) (hl : env.mutex_lock_ok = true) :
    (env.mutex_unlock_ok = false →
      pkl_send_message (some h) L (some m) env = .abort) ∧
    (env.mutex_unlock_ok = true →
      ∃ r, pkl_send_message (some h) L (some m) env = .ret r ∧
        r.pexec = some h ∧
        r.trace = [.mutex_lock, .internal_send h.graal_isolatethread L m,
          .mutex_unlock] ∧
        (r.ret = 0 ↔ (env.internal_send h.graal_isolatethread L m).1 = 0) ∧
        (r.ret ≠ 0 → r.ret = (env.internal_send h.graal_isolatethread L m).1 ∧
          r.msg = some (env.internal_send h.graal_isolatethread L m).2) ∧
        (r.ret = 0 → r.msg = none)) := by
  constructor
  · intro hu
    simp [pkl_send_message, hl, hu]
  · intro hu
    by_cases hresp : (env.internal_send h.graal_isolatethread L m).1 = 0
    · refine ⟨⟨0, none, some h,
        [.mutex_lock, .internal_send h.graal_isolatethread L m, .mutex_unlock]⟩,
        ?_, rfl, rfl, by simp [hresp], fun h0 => absurd rfl h0, fun _ => rfl⟩
      simp [pkl_send_message, hl, hu, hresp]
    · refine ⟨⟨(env.internal_send h.graal_isolatethread L m).1,
        some (env.internal_send h.graal_isolatethread L m).2, some h,
        [.mutex_lock, .internal_send h.graal_isolatethread L m, .mutex_unlock]⟩,
        ?_, rfl, rfl, Iff.rfl, fun _ => ⟨rfl, rfl⟩, fun h0 => absurd h0 hresp⟩
      simp [pkl_send_message, hl, hu, hresp]

/-- Witness for C5: a concrete uncontended send succeeds with the lock
released and the handle intact. -/
theorem pkl_send_lock_released_witness :
    ∃ r, pkl_send_message (some hLive) 5 (some [104]) envAllOk = .ret r ∧
      r.pexec = some hLive ∧
      r.trace = [.mutex_lock, .internal_send (some 1) 5 [104], .mutex_unlock] := by
  obtain ⟨r, h1, h2, h3, -⟩ :=
    (pkl_send_lock_released hLive 5 [104] envAllOk rfl).2 rfl
  exact ⟨r, h1, h2, h3⟩

/-- C1: while a handle is live (the singleton guard is set), a second
`pkl_init` returns -1 with the already-initialized message, writes nothing
to the out-slot, performs no external call, and returns the world — guard
and live handle — exactly as it was; a send on the live handle still
succeeds afterwards; and conversely every successful `pkl_init` started from
a clear guard and set it, so at most one successful create is ever
outstanding without an intervening successful close. -/
theorem pkl_init_second_create_rejected (env env2 : Env) (w : World)
    (hlive : w.pkl_singleton_guard = true) :
    pkl_init false false env w =
      .ret ⟨-1,
        some ("pkl_init called multiple times without calling pkl_close"),
        none, w, []⟩ ∧
    (∀ h L m, env2.mutex_lock_ok = true → env2.mutex_unlock_ok = true →
      (env2.internal_send h.graal_isolatethread L m).1 = 0 →
      pkl_send_message (some h) L (some m) env2 =
        .ret ⟨0, none, some h,
          [.mutex_lock, .internal_send h.graal_isolatethread L m,
           .mutex_unlock]⟩) ∧
    (∀ envA wA r, pkl_init false false envA wA = .ret r → r.ret = 0 →
      wA.pkl_singleton_guard = false ∧ r.world.pkl_singleton_guard = true) := by
  refine ⟨by simp [pkl_init, hlive], ?_, ?_⟩
  · intro h L m hl hu hresp
    simp [pkl_send_message, hl, hu, hresp]
  · intro envA wA r hr h0
    have hg : wA.pkl_singleton_guard = false := by
      by_contra hgc
      rw [Bool.not_eq_false] at hgc
      simp [pkl_init, hgc] at hr
      rw [← hr] at h0
      simp at h0
    refine ⟨hg, ?_⟩
    by_cases hca : envA.calloc_ok = false
    · simp [pkl_init, hg, hca] at hr
    · rw [Bool.not_eq_false] at hca
      by_cases hmi : envA.mutex_init_ok = false
      · simp [pkl_init, hg, hca, hmi] at hr
        rw [← hr] at h0
        simp at h0
      · rw [Bool.not_eq_false] at hmi
        cases hii : envA.internal_init_result with
        | none =>
          by_cases hmd : envA.mutex_destroy_ok = false
          · simp [pkl_init, hg, hca, hmi, hii, hmd] at hr
          · rw [Bool.not_eq_false] at hmd
            simp [pkl_init, hg, hca, hmi, hii, hmd] at hr
            rw [← hr] at h0
            simp at h0
        | some iso =>
          simp [pkl_init, hg, hca, hmi, hii] at hr
          rw [← hr]

/-- Witness for C1: with a live executor, the second create is rejected and
a concrete send on the live handle still succeeds. -/
theorem pkl_init_second_create_rejected_witness :
    pkl_init false false envAllOk wLive =
      .ret ⟨-1,
        some ("pkl_init called multiple times without calling pkl_close"),
        none, wLive, []⟩ ∧
    pkl_send_message (some hLive) 5 (some [104]) envAllOk =
      .ret ⟨0, none, some hLive,
        [.mutex_lock, .internal_send (some 1) 5 [104], .mutex_unlock]⟩ := by
  obtain ⟨h1, h2, -⟩ :=
    pkl_init_second_create_rejected envAllOk envAllOk wLive rfl
  exact ⟨h1, h2 hLive 5 [104] rfl rfl rfl⟩

/-- C3: with the guard clear and the allocation succeeding, each failure
path of `pkl_init` is atomic.  If the mutex cannot be initialized, the
storage is freed (trace: calloc, mutex-init, free), `*exec` is set to
`NULL`, and the world — in particular the still-clear guard — is returned
untouched.  If the engine cannot be created, the mutex is additionally
destroyed before the free, again leaving the world untouched.  From that
untouched world a subsequent `pkl_init` with working primitives succeeds. -/
theorem pkl_init_failure_paths_atomic (env : Env) (w : World)
    (hguard : w.pkl_singleton_guard = false) (hca : env.calloc_ok = true) :
    (env.mutex_init_ok = false →
      pkl_init false false env w =
        .ret ⟨-1, some ("Failed to initialize mutex"), some none, w,
          [.calloc_exec, .mutex_init, .free_exec]⟩) ∧
    (env.mutex_init_ok = true → env.internal_init_result = none →
      env.mutex_destroy_ok = true →
      pkl_init false false env w =
        .ret ⟨-1, some ("Failed to allocate graal_isolatethread"), some none, w,
          [.calloc_exec, .mutex_init, .internal_init, .mutex_destroy,
           .free_exec]⟩) ∧
    (∀ env2 iso, env2.calloc_ok = true → env2.mutex_init_ok = true →
      env2.internal_init_result = some iso →
      pkl_init false false env2 w =
        .ret ⟨0, none, some (some ⟨some iso⟩), ⟨true, some ⟨some iso⟩⟩,
          [.calloc_exec, .mutex_init, .internal_init,
           .internal_register_response_handler, .internal_server_start,
           .set_guard true]⟩) :=
  ⟨fun hmi => by simp [pkl_init, hguard, hca, hmi],
   fun hmi hii hmd => by simp [pkl_init, hguard, hca, hmi, hii, hmd],
   fun env2 iso hca2 hmi2 hii2 => by simp [pkl_init, hguard, hca2, hmi2, hii2]⟩

/-- Witness for C3: both concrete failure paths leave the empty world
untouched (guard clear), and a retry with working primitives succeeds. -/
theorem pkl_init_failure_paths_atomic_witness :
    pkl_init false false envMutexInitFail wEmpty =
      .ret ⟨-1, some ("Failed to initialize mutex"), some none, wEmpty,
        [.calloc_exec, .mutex_init, .free_exec]⟩ ∧
    pkl_init false false envEngineInitFail wEmpty =
      .ret ⟨-1, some ("Failed to allocate graal_isolatethread"), some none,
        wEmpty,
        [.calloc_exec, .mutex_init, .internal_init, .mutex_destroy,
         .free_exec]⟩ ∧
    pkl_init false false envAllOk wEmpty =
      .ret ⟨0, none, some (some ⟨some 1⟩), ⟨true, some ⟨some 1⟩⟩,
        [.calloc_exec, .mutex_init, .internal_init,
         .internal_register_response_handler, .internal_server_start,
         .set_guard true]⟩ := by
  obtain ⟨h1, -, h3⟩ := pkl_init_failure_paths_atomic envMutexInitFail wEmpty rfl rfl
  obtain ⟨-, h2, -⟩ := pkl_init_failure_paths_atomic envEngineInitFail wEmpty rfl rfl
  exact ⟨h1 rfl, h2 rfl rfl rfl, h3 envAllOk 1 rfl rfl rfl⟩

/-- Counterexample to C4 as stated: with a non-null handle, `pkl_close`
still returns an error — `PKL_ERR_LOCK` with the lock-failure message — when
acquiring the mutex fails, so "returns an error if and only if the handle is
null" is false. -/
theorem pkl_close_error_iff_null_counterexample :
    pkl_close (some hLive) envLockFail wLive =
      .ret ⟨PKL_ERR_LOCK, some ("failed to lock mutex"), wLive, [.mutex_lock]⟩ ∧
    PKL_ERR_LOCK ≠ 0 ∧ (some hLive ≠ (none : Option PklExec)) :=
  ⟨rfl, by decide, by decide⟩

/-- C4 (amended): `pkl_close` returns the `NullArgument` error (-1) exactly
when the handle is null; with a non-null handle the only other error return
is `PKL_ERR_LOCK` when acquiring the lock fails; failure to release or
destroy the already-acquired lock is never returned to the caller as an
error code — those paths escalate to process termination. -/
theorem pkl_close_error_conditions (pexec : Option PklExec) (env : Env)
    (w : World) :
    (pexec = none →
      pkl_close pexec env w = .ret ⟨-1, some ("pexec is null"), w, []⟩) ∧
    (∀ h, pexec = some h → env.mutex_lock_ok = false →
      pkl_close pexec env w =
        .ret ⟨PKL_ERR_LOCK, some ("failed to lock mutex"), w, [.mutex_lock]⟩) ∧
    (∀ h, pexec = some h → env.mutex_lock_ok = true →
      env.mutex_unlock_ok = false → pkl_close pexec env w = .abort) ∧
    (∀ h, pexec = some h → env.mutex_lock_ok = true →
      env.mutex_unlock_ok = true → env.mutex_destroy_ok = false →
      pkl_close pexec env w = .abort) ∧
    (∀ r, pkl_close pexec env w = .ret r → r.ret ≠ 0 →
      (pexec = none ∧ r.ret = -1) ∨
      (env.mutex_lock_ok = false ∧ r.ret = PKL_ERR_LOCK)) := by
  refine ⟨fun hn => by rw [hn]; rfl,
    fun h hs hl => by rw [hs]; simp [pkl_close, hl],
    fun h hs hl hu => by rw [hs]; simp [pkl_close, hl, hu],
    fun h hs hl hu hd => by rw [hs]; simp [pkl_close, hl, hu, hd],
    ?_⟩
  intro r hr hne
  cases hp : pexec with
  | none =>
    rw [hp] at hr
    simp only [pkl_close, Outcome.ret.injEq] at hr
    rw [← hr]
    exact Or.inl ⟨rfl, rfl⟩
  | some h =>
    rw [hp] at hr
    by_cases hl : env.mutex_lock_ok = false
    · simp [pkl_close, hl] at hr
      rw [← hr]
      exact Or.inr ⟨hl, rfl⟩
    · rw [Bool.not_eq_false] at hl
      by_cases hu : env.mutex_unlock_ok = false
      · simp [pkl_close, hl, hu] at hr
      · rw [Bool.not_eq_false] at hu
        by_cases hd : env.mutex_destroy_ok = false
        · simp [pkl_close, hl, hu, hd] at hr
        · rw [Bool.not_eq_false] at hd
          simp [pkl_close, hl, hu, hd] at hr
          rw [← hr] at hne
          exact absurd rfl hne

/-- Witness for C4 (amended): the null-handle close errors and the
destroy-failure close aborts, at concrete inputs. -/
theorem pkl_close_error_conditions_witness :
    pkl_close none envAllOk wLive =
      .ret ⟨-1, some ("pexec is null"), wLive, []⟩ ∧
    pkl_close (some hLive) ⟨true, true, true, true, false, some 1, sendOk⟩
      wLive = .abort := by
  obtain ⟨h1, -, -, h4, -⟩ :=
    pkl_close_error_conditions none envAllOk wLive
  obtain ⟨-, -, -, h4b, -⟩ :=
    pkl_close_error_conditions (some hLive)
      ⟨true, true, true, true, false, some 1, sendOk⟩ wLive
  exact ⟨h1 rfl, h4b hLive rfl rfl rfl rfl⟩

/-- Counterexample to C7 as stated: a successful `pkl_close` clears the
singleton guard before freeing the handle storage (lines 219-220 of the C),
so the code's event order is not the claimed order, which puts the free
before the guard clear. -/
theorem pkl_close_order_counterexample :
    pkl_close (some hLive) envAllOk wLive =
      .ret ⟨0, none, ⟨false, none⟩, code_close_order⟩ ∧
    code_close_order ≠ spec_close_order :=
  ⟨rfl, by decide⟩

/-- C7 (amended): a successful `pkl_close` performs, in order: acquire the
lock; stop the engine's server loop and close its instance; null the engine
ref inside the handle before freeing; release and destroy the lock; clear
the singleton guard; free the handle storage — so that afterward the guard
is clear and a subsequent `pkl_init` may succeed. -/
theorem pkl_close_success_sequence (h : PklExec) (env env2 : Env) (w : World)
    (hl : env.mutex_lock_ok = true) (hu : env.mutex_unlock_ok = true)
    (hd : env.mutex_destroy_ok = true) :
    pkl_close (some h) env w =
      .ret ⟨0, none, ⟨false, none⟩, code_close_order⟩ ∧
    code_close_order =
      [.mutex_lock, .internal_server_stop, .internal_close, .null_engine_ref,
       .mutex_unlock, .mutex_destroy, .set_guard false, .free_exec] ∧
    (∀ iso, env2.calloc_ok = true → env2.mutex_init_ok = true →
      env2.internal_init_result = some iso →
      ∃ r2, pkl_init false false env2 ⟨false, none⟩ = .ret r2 ∧ r2.ret = 0 ∧
        r2.world.pkl_singleton_guard = true) := by
  refine ⟨by simp [pkl_close, hl, hu, hd], rfl, ?_⟩
  intro iso hca hmi hii
  refine ⟨⟨0, none, some (some ⟨some iso⟩), ⟨true, some ⟨some iso⟩⟩,
    [.calloc_exec, .mutex_init, .internal_init,
     .internal_register_response_handler, .internal_server_start,
     .set_guard true]⟩, ?_, rfl, rfl⟩
  simp [pkl_init, hca, hmi, hii]

/-- Witness for C7 (amended): a concrete close followed by a successful
re-create. -/
theorem pkl_close_success_sequence_witness :
    pkl_close (some hLive) envAllOk wLive =
      .ret ⟨0, none, ⟨false, none⟩, code_close_order⟩ ∧
    ∃ r2, pkl_init false false envAllOk ⟨false, none⟩ = .ret r2 ∧
      r2.ret = 0 := by
  obtain ⟨h1, -, h3⟩ :=
    pkl_close_success_sequence hLive envAllOk envAllOk wLive rfl rfl rfl
  obtain ⟨r2, hr2, hret, -⟩ := h3 1 rfl rfl rfl
  exact ⟨h1, r2, hr2, hret⟩

/-- Final state of a concrete run of the racing system with payloads `[1]`
and `[2]`: both sends returned, engine saw `[1, 2]`. -/
def sysFinalExample : Sys := ⟨none, .done, .done, [1, 2]⟩

/-- C2: two concurrent `pkl_send_message` calls on the same non-null handle
are strictly serialized by the handle's lock.  In every reachable state a
thread forwarding its payload holds the lock; when both calls have returned,
the byte stream the engine observed is one whole payload followed by the
other — never interleaved byte-for-byte; the system can always step until
both calls have returned and every step strictly decreases the remaining
work, so both calls eventually return; and the value each call returns is
success (0, no message) or the engine's non-zero protocol-error code with
the engine-supplied text. -/
theorem pkl_send_concurrent_serialized (p0 p1 : List Nat) :
    (∀ s, Reach p0 p1 s → s.pc0 = .done → s.pc1 = .done →
      s.stream = p0 ++ p1 ∨ s.stream = p1 ++ p0) ∧
    (∀ s r, Reach p0 p1 s →
      (s.pc0 = .sending r → s.lock = some .t0) ∧
      (s.pc1 = .sending r → s.lock = some .t1)) ∧
    (∀ s, Reach p0 p1 s → ¬(s.pc0 = .done ∧ s.pc1 = .done) →
      ∃ s', Step p0 p1 s s') ∧
    (∀ s s', Step p0 p1 s s' → sysMeasure p0 p1 s' < sysMeasure p0 p1 s) ∧
    (∀ resp emsg, sendReturn (resp, emsg) = (0, none) ∨
      (resp ≠ 0 ∧ sendReturn (resp, emsg) = (resp, some emsg))) := by
  refine ⟨?_, ?_, ?_, fun s s' h => sysMeasure_step h, ?_⟩
  · intro s hs h0 h1
    obtain ⟨-, -, c0, c1, hc0, hc1, hstream, -, -⟩ := sysInv_reach hs
    rw [h0] at hc0
    rw [h1] at hc1
    simp only [contrib] at hc0 hc1
    rw [hc0, hc1] at hstream
    exact hstream
  · intro s r hs
    obtain ⟨hl0, hl1, -⟩ := sysInv_reach hs
    exact ⟨fun hp => hl0.mp (by rw [hp]; trivial),
           fun hp => hl1.mp (by rw [hp]; trivial)⟩
  · intro s hs hnd
    exact sys_progress (sysInv_reach hs) hnd
  · intro resp emsg
    by_cases hresp : resp = 0
    · left
      simp [sendReturn, hresp]
    · right
      exact ⟨hresp, by simp [sendReturn, hresp]⟩

/-- Witness for C2: a concrete complete interleaved run with payloads `[1]`
and `[2]` — thread 0 then thread 1 — reaches the both-returned state, and
the theorem yields that the engine's stream is one payload after the
other. -/
theorem pkl_send_concurrent_serialized_witness :
    sysFinalExample.stream = [1] ++ [2] ∨
    sysFinalExample.stream = [2] ++ [1] := by
  have hreach : Reach [1] [2] sysFinalExample := by
    refine Reach.step (Reach.step (Reach.step (Reach.step (Reach.step
      (Reach.step (Reach.step (Reach.step Reach.init
        (Step.acquire0 initSys rfl rfl))
        (Step.emit0 ⟨some .t0, .sending [1], .ready, []⟩ 1 [] rfl))
        (Step.finish0 ⟨some .t0, .sending [], .ready, [1]⟩ rfl))
        (Step.release0 ⟨some .t0, .unlocking, .ready, [1]⟩ rfl))
        (Step.acquire1 ⟨none, .done, .ready, [1]⟩ rfl rfl))
        (Step.emit1 ⟨some .t1, .done, .sending [2], [1]⟩ 2 [] rfl))
        (Step.finish1 ⟨some .t1, .done, .sending [], [1, 2]⟩ rfl))
        (Step.release1 ⟨some .t1, .done, .unlocking, [1, 2]⟩ rfl)
  exact (pkl_send_concurrent_serialized [1] [2]).1 sysFinalExample hreach rfl rfl
